import Mathlib

/-!
Shallow embedding of `internal/bridge/mocks.go` from the proton-bridge
repository, together with proofs of the specification's claims about it.

Go state is made explicit: a method that mutates its receiver becomes a
function returning the updated value, a method returning `error` returns an
`Option GoError` (`none` models Go's `nil` error), and the `sync.RWMutex`
guarding `TestUpdater` is reflected by treating each method body as one
atomic step of a trace semantics (`runOps`), which is faithful because every
method of the source holds the lock for its whole body.
-/

namespace Bridge

/-- Semantic version (`github.com/Masterminds/semver/v3.Version`).  Only the
identity of a version matters in `mocks.go`, so the numeric components
suffice. -/
structure SemVer where
  major : Nat
  minor : Nat
  patch : Nat
deriving DecidableEq, Repr

/-- A Go error value; results of fallible methods are `Option GoError`, with
`none` modelling Go's `nil` error. -/
abbrev GoError := String

/-- Opaque `context.Context` argument; every method of `mocks.go` ignores it. -/
structure Context where
  tag : Nat
deriving DecidableEq, Repr

/-- Opaque `updater.Downloader` argument; ignored by every method here. -/
structure Downloader where
  tag : Nat
deriving DecidableEq, Repr

/-- Opaque `updater.Channel` argument; ignored by every method here. -/
structure Channel where
  tag : Nat
deriving DecidableEq, Repr

/-- Opaque `updater.Release` argument of `InstallUpdate`; ignored. -/
structure Release where
  tag : Nat
deriving DecidableEq, Repr

/-- The fields of `updater.VersionInfoLegacy` used by `mocks.go`.  The Go
fields `Version` and `MinAuto` are pointers (`*semver.Version`), hence
`Option`; the `float64` rollout proportion only ever holds the exact value
1.0 here and is modelled as a rational. -/
structure VersionInfoLegacy where
  Version : Option SemVer
  MinAuto : Option SemVer
  RolloutProportion : ℚ
deriving DecidableEq, Repr

/-- State of `TestUpdater`: the legacy record `latest` and the new-style
release info `releases`.  The type `updater.VersionInfo` is opaque to
`mocks.go` (the store treats it as one atomic value), so the store is
parametric in it; the Go zero value of that type is `default`.  The
`sync.RWMutex` field carries no state and is reflected by the atomic-step
trace semantics `runOps` below. -/
structure TestUpdater (ρ : Type) where
  latest : VersionInfoLegacy
  releases : ρ

/-- `NewTestUpdater`: seeds `latest` with the two supplied versions and
rollout proportion 1.0; `releases` starts at its Go zero value. -/
def NewTestUpdater (ρ : Type) [Inhabited ρ] (version minAuto : Option SemVer) :
    TestUpdater ρ :=
  { latest := { Version := version, MinAuto := minAuto, RolloutProportion := 1 }
    releases := default }

variable {ρ : Type}

/-- `SetLatestVersionLegacy`: replaces `latest` wholesale, with rollout
proportion unconditionally 1.0. -/
def TestUpdater.SetLatestVersionLegacy (t : TestUpdater ρ)
    (version minAuto : Option SemVer) : TestUpdater ρ :=
  { t with latest := { Version := version, MinAuto := minAuto, RolloutProportion := 1 } }

/-- `GetVersionInfoLegacy`: returns the current `latest` and a nil error;
the context, downloader and channel arguments are ignored. -/
def TestUpdater.GetVersionInfoLegacy (t : TestUpdater ρ)
    (_ctx : Context) (_d : Downloader) (_ch : Channel) :
    VersionInfoLegacy × Option GoError :=
  (t.latest, none)

/-- `InstallUpdateLegacy`: no-op, nil error.  The state component of the
result records that the receiver is untouched. -/
def TestUpdater.InstallUpdateLegacy (t : TestUpdater ρ)
    (_ctx : Context) (_d : Downloader) (_vi : VersionInfoLegacy) :
    TestUpdater ρ × Option GoError :=
  (t, none)

/-- `RemoveOldUpdates`: no-op, nil error. -/
def TestUpdater.RemoveOldUpdates (t : TestUpdater ρ) :
    TestUpdater ρ × Option GoError :=
  (t, none)

/-- `SetLatestVersion`: replaces `releases` wholesale. -/
def TestUpdater.SetLatestVersion (t : TestUpdater ρ) (releases : ρ) :
    TestUpdater ρ :=
  { t with releases := releases }

/-- `GetVersionInfo`: returns the current `releases` and a nil error; the
context and downloader arguments are ignored. -/
def TestUpdater.GetVersionInfo (t : TestUpdater ρ)
    (_ctx : Context) (_d : Downloader) : ρ × Option GoError :=
  (t.releases, none)

/-- `InstallUpdate`: no-op, nil error. -/
def TestUpdater.InstallUpdate (t : TestUpdater ρ)
    (_ctx : Context) (_d : Downloader) (_r : Release) :
    TestUpdater ρ × Option GoError :=
  (t, none)

/-- One public operation on a `TestUpdater`, with its arguments.  Each
operation's body runs under the store's read-write lock, so in any
concurrent execution the operations take effect in some total order: a
schedule is a `List (UpdaterOp ρ)`. -/
inductive UpdaterOp (ρ : Type) where
  | setLatestVersionLegacy (version minAuto : Option SemVer)
  | getVersionInfoLegacy (ctx : Context) (d : Downloader) (ch : Channel)
  | installUpdateLegacy (ctx : Context) (d : Downloader) (vi : VersionInfoLegacy)
  | removeOldUpdates
  | setLatestVersion (releases : ρ)
  | getVersionInfo (ctx : Context) (d : Downloader)
  | installUpdate (ctx : Context) (d : Downloader) (r : Release)
deriving DecidableEq

/-- Effect of one operation on the store's state (reads leave it unchanged;
the no-op installers return their receiver unchanged). -/
def applyOp (t : TestUpdater ρ) : UpdaterOp ρ → TestUpdater ρ
  | .setLatestVersionLegacy v m => t.SetLatestVersionLegacy v m
  | .getVersionInfoLegacy _ _ _ => t
  | .installUpdateLegacy ctx d vi => (t.InstallUpdateLegacy ctx d vi).1
  | .removeOldUpdates => t.RemoveOldUpdates.1
  | .setLatestVersion r => t.SetLatestVersion r
  | .getVersionInfo _ _ => t
  | .installUpdate ctx d r => (t.InstallUpdate ctx d r).1

/-- Runs a schedule of operations from a starting state. -/
def runOps (t : TestUpdater ρ) (ops : List (UpdaterOp ρ)) : TestUpdater ρ :=
  ops.foldl applyOp t

/-- The legacy-write payload of an operation, when it is one. -/
def legacyWriteOf : UpdaterOp ρ → Option (Option SemVer × Option SemVer)
  | .setLatestVersionLegacy v m => some (v, m)
  | _ => none

/-- Arguments of the most recently completed `SetLatestVersionLegacy` in a
schedule, if any. -/
def lastLegacyWrite : List (UpdaterOp ρ) → Option (Option SemVer × Option SemVer)
  | [] => none
  | op :: rest =>
    match lastLegacyWrite rest with
    | some p => some p
    | none => legacyWriteOf op

/-- The release-write payload of an operation, when it is one. -/
def releaseWriteOf : UpdaterOp ρ → Option ρ
  | .setLatestVersion r => some r
  | _ => none

/-- Argument of the most recently completed `SetLatestVersion` in a
schedule, if any. -/
def lastReleaseWrite : List (UpdaterOp ρ) → Option ρ
  | [] => none
  | op :: rest =>
    match lastReleaseWrite rest with
    | some r => some r
    | none => releaseWriteOf op

lemma applyOp_latest (t : TestUpdater ρ) (op : UpdaterOp ρ) :
    (applyOp t op).latest =
      (legacyWriteOf op).elim t.latest
        (fun p => ⟨p.1, p.2, 1⟩) := by
  cases op <;> rfl

lemma lastLegacyWrite_cons (op : UpdaterOp ρ) (rest : List (UpdaterOp ρ)) :
    lastLegacyWrite (op :: rest) =
      match lastLegacyWrite rest with
      | some p => some p
      | none => legacyWriteOf op := rfl

lemma runOps_latest (ops : List (UpdaterOp ρ)) (t : TestUpdater ρ) :
    (runOps t ops).latest =
      (lastLegacyWrite ops).elim t.latest (fun p => ⟨p.1, p.2, 1⟩) := by
  induction ops generalizing t with
  | nil => rfl
  | cons op rest ih =>
    show (runOps (applyOp t op) rest).latest = _
    rw [ih, applyOp_latest, lastLegacyWrite_cons]
    cases h : lastLegacyWrite rest <;> cases hop : legacyWriteOf op <;> simp [h, hop]

lemma applyOp_releases (t : TestUpdater ρ) (op : UpdaterOp ρ) :
    (applyOp t op).releases = (releaseWriteOf op).elim t.releases id := by
  cases op <;> rfl

lemma lastReleaseWrite_cons (op : UpdaterOp ρ) (rest : List (UpdaterOp ρ)) :
    lastReleaseWrite (op :: rest) =
      match lastReleaseWrite rest with
      | some r => some r
      | none => releaseWriteOf op := rfl

lemma runOps_releases (ops : List (UpdaterOp ρ)) (t : TestUpdater ρ) :
    (runOps t ops).releases =
      (lastReleaseWrite ops).elim t.releases id := by
  induction ops generalizing t with
  | nil => rfl
  | cons op rest ih =>
    show (runOps (applyOp t op) rest).releases = _
    rw [ih, applyOp_releases, lastReleaseWrite_cons]
    cases h : lastReleaseWrite rest <;> cases hop : releaseWriteOf op <;> simp [h, hop]

lemma lastLegacyWrite_mem {ops : List (UpdaterOp ρ)} {v m : Option SemVer}
    (h : lastLegacyWrite ops = some (v, m)) :
    UpdaterOp.setLatestVersionLegacy v m ∈ ops := by
  induction ops with
  | nil => exact absurd h (by simp [lastLegacyWrite])
  | cons op rest ih =>
    rw [lastLegacyWrite_cons] at h
    cases hr : lastLegacyWrite rest with
    | some p =>
      rw [hr] at h
      obtain rfl : p = (v, m) := by simpa using h
      exact List.mem_cons_of_mem _ (ih hr)
    | none =>
      rw [hr] at h
      simp only [] at h
      cases op
      case setLatestVersionLegacy v' m' =>
        obtain ⟨rfl, rfl⟩ : v' = v ∧ m' = m := by simpa [legacyWriteOf] using h
        exact List.mem_cons_self _ _
      all_goals simp [legacyWriteOf] at h

/-- A schedule is an interleaving of the per-goroutine call sequences: it is
built by repeatedly letting one goroutine run the first of its remaining
operations.  The store's read-write lock serializes the operation bodies, so
every concurrent execution of N goroutines takes effect as such a schedule. -/
inductive Interleaving {α : Type} : List (List α) → List α → Prop where
  | done (gs : List (List α)) : (∀ g ∈ gs, g = []) → Interleaving gs []
  | step (gs₁ : List (List α)) (a : α) (g : List α) (gs₂ : List (List α))
      (rest : List α) : Interleaving (gs₁ ++ g :: gs₂) rest →
      Interleaving (gs₁ ++ (a :: g) :: gs₂) (a :: rest)

/-- C1: after any schedule of operations on a `TestUpdater` constructed with
seed versions `v0`, `m0`, `GetVersionInfoLegacy` (with any context,
downloader and channel arguments) returns the record holding the arguments
of the most recent `SetLatestVersionLegacy` (or the seed values if there was
none), with `RolloutProportion` exactly 1.0, and a nil error. -/
theorem getVersionInfoLegacy_returns_last_write (ρ : Type) [Inhabited ρ]
    (v0 m0 : Option SemVer) (ops : List (UpdaterOp ρ))
    (ctx : Context) (d : Downloader) (ch : Channel) :
    (runOps (NewTestUpdater ρ v0 m0) ops).GetVersionInfoLegacy ctx d ch =
      ({ Version := ((lastLegacyWrite ops).getD (v0, m0)).1
         MinAuto := ((lastLegacyWrite ops).getD (v0, m0)).2
         RolloutProportion := 1 }, none) := by
  have h := runOps_latest ops (NewTestUpdater ρ v0 m0)
  unfold TestUpdater.GetVersionInfoLegacy
  rw [h]
  cases lastLegacyWrite ops <;> rfl

/-- C2: after any schedule of operations on a `TestUpdater`, `GetVersionInfo`
(with any context and downloader arguments) returns exactly the argument of
the most recent `SetLatestVersion` (value equality, no transformation), or
the zero value of the release-info type if there was none, with a nil
error. -/
theorem getVersionInfo_returns_last_write (ρ : Type) [Inhabited ρ]
    (v0 m0 : Option SemVer) (ops : List (UpdaterOp ρ))
    (ctx : Context) (d : Downloader) :
    (runOps (NewTestUpdater ρ v0 m0) ops).GetVersionInfo ctx d =
      ((lastReleaseWrite ops).getD default, none) := by
  have h := runOps_releases ops (NewTestUpdater ρ v0 m0)
  unfold TestUpdater.GetVersionInfo
  rw [h]
  cases lastReleaseWrite ops <;> rfl

/-- C3: in any schedule that interleaves the call sequences of any number of
goroutines, every `GetVersionInfoLegacy` observes a record whose `Version`
and `MinAuto` come from one single write: either both from the constructor's
seed or both from one `SetLatestVersionLegacy` that precedes the read. -/
theorem no_torn_legacy_read (ρ : Type) [Inhabited ρ] (v0 m0 : Option SemVer)
    (gs : List (List (UpdaterOp ρ))) (sched pre suf : List (UpdaterOp ρ))
    (ctx : Context) (d : Downloader) (ch : Channel)
    (hI : Interleaving gs sched)
    (hsplit : sched = pre ++ UpdaterOp.getVersionInfoLegacy ctx d ch :: suf) :
    ∃ v m : Option SemVer,
      ((runOps (NewTestUpdater ρ v0 m0) pre).GetVersionInfoLegacy ctx d ch).1 =
        ⟨v, m, 1⟩ ∧
      ((v = v0 ∧ m = m0) ∨ UpdaterOp.setLatestVersionLegacy v m ∈ pre) := by
  have h := runOps_latest pre (NewTestUpdater ρ v0 m0)
  cases hl : lastLegacyWrite pre with
  | none =>
    refine ⟨v0, m0, ?_, Or.inl ⟨rfl, rfl⟩⟩
    show (runOps (NewTestUpdater ρ v0 m0) pre).latest = _
    rw [h, hl]
    rfl
  | some p =>
    refine ⟨p.1, p.2, ?_, Or.inr (lastLegacyWrite_mem (by rw [hl]))⟩
    show (runOps (NewTestUpdater ρ v0 m0) pre).latest = _
    rw [h, hl]
    rfl

/-- Witness for C3: two goroutines, one writing version 2.0.0 with minimum
auto-update version 1.0.0, the other reading; the read observes the record
of that single write. -/
theorem no_torn_legacy_read_witness :
    ∃ v m : Option SemVer,
      ((runOps (NewTestUpdater Nat none none)
          [UpdaterOp.setLatestVersionLegacy (some ⟨2, 0, 0⟩) (some ⟨1, 0, 0⟩)]).GetVersionInfoLegacy
          ⟨0⟩ ⟨0⟩ ⟨0⟩).1 = ⟨v, m, 1⟩ ∧
      ((v = none ∧ m = none) ∨
        UpdaterOp.setLatestVersionLegacy v m ∈
          ([UpdaterOp.setLatestVersionLegacy (some ⟨2, 0, 0⟩) (some ⟨1, 0, 0⟩)] :
            List (UpdaterOp Nat))) :=
  no_torn_legacy_read Nat none none
    [[UpdaterOp.setLatestVersionLegacy (some ⟨2, 0, 0⟩) (some ⟨1, 0, 0⟩)],
      [UpdaterOp.getVersionInfoLegacy ⟨0⟩ ⟨0⟩ ⟨0⟩]]
    [UpdaterOp.setLatestVersionLegacy (some ⟨2, 0, 0⟩) (some ⟨1, 0, 0⟩),
      UpdaterOp.getVersionInfoLegacy ⟨0⟩ ⟨0⟩ ⟨0⟩]
    [UpdaterOp.setLatestVersionLegacy (some ⟨2, 0, 0⟩) (some ⟨1, 0, 0⟩)]
    [] ⟨0⟩ ⟨0⟩ ⟨0⟩
    (Interleaving.step []
      (UpdaterOp.setLatestVersionLegacy (some ⟨2, 0, 0⟩) (some ⟨1, 0, 0⟩)) []
      [[UpdaterOp.getVersionInfoLegacy ⟨0⟩ ⟨0⟩ ⟨0⟩]]
      [UpdaterOp.getVersionInfoLegacy ⟨0⟩ ⟨0⟩ ⟨0⟩]
      (Interleaving.step [[]] (UpdaterOp.getVersionInfoLegacy ⟨0⟩ ⟨0⟩ ⟨0⟩) [] [] []
        (Interleaving.done [[], []] (by simp))))
    rfl

/-- C4: in every state reachable from the constructor by any schedule of
public operations, the legacy record's `RolloutProportion` is exactly 1.0. -/
theorem rolloutProportion_always_one (ρ : Type) [Inhabited ρ]
    (v0 m0 : Option SemVer) (ops : List (UpdaterOp ρ)) :
    (runOps (NewTestUpdater ρ v0 m0) ops).latest.RolloutProportion = 1 := by
  rw [runOps_latest]
  cases lastLegacyWrite ops <;> rfl

/-- C5: `InstallUpdateLegacy`, `RemoveOldUpdates` and `InstallUpdate` return
a nil error for every argument value and leave the store's state unchanged. -/
theorem install_and_remove_always_succeed (ρ : Type) (t : TestUpdater ρ)
    (ctx ctx' : Context) (d d' : Downloader) (vi : VersionInfoLegacy) (r : Release) :
    t.InstallUpdateLegacy ctx d vi = (t, none) ∧
    t.RemoveOldUpdates = (t, none) ∧
    t.InstallUpdate ctx' d' r = (t, none) :=
  ⟨rfl, rfl, rfl⟩

/-- C6: the two fields are independent: `SetLatestVersionLegacy` leaves the
value `GetVersionInfo` returns unchanged, and `SetLatestVersion` leaves the
record `GetVersionInfoLegacy` returns unchanged. -/
theorem legacy_and_release_fields_independent (ρ : Type) (t : TestUpdater ρ)
    (v m : Option SemVer) (r : ρ) (ctx ctx' : Context) (d d' : Downloader)
    (ch : Channel) :
    (t.SetLatestVersionLegacy v m).GetVersionInfo ctx d = t.GetVersionInfo ctx d ∧
    (t.SetLatestVersion r).GetVersionInfoLegacy ctx' d' ch =
      t.GetVersionInfoLegacy ctx' d' ch :=
  ⟨rfl, rfl⟩

/-- Identity of a Go channel: channels are reference values, compared here
by allocation identity. -/
structure GoChan where
  id : Nat
deriving DecidableEq, Repr

/-- Allocation and close state of the channels of one test process:
`nextId` is the next fresh identity, `closedIds` the identities of the
channels already closed. -/
structure ChanWorld where
  nextId : Nat
  closedIds : List Nat
deriving DecidableEq, Repr

/-- Well-formed channel world: every closed identity was allocated before
`nextId`, so a freshly made channel is never already closed. -/
def ChanWorld.WF (w : ChanWorld) : Prop :=
  ∀ i ∈ w.closedIds, i < w.nextId

/-- Model of Go's `make(chan ...)`: allocates a fresh, open channel. -/
def makeChan (w : ChanWorld) : GoChan × ChanWorld :=
  (⟨w.nextId⟩, ⟨w.nextId + 1, w.closedIds⟩)

/-- A Go panic value. -/
structure GoPanic where
  message : String
deriving DecidableEq, Repr

/-- Model of Go's `close(ch)`: closing an already-closed channel is the
runtime fault "close of closed channel"; otherwise the channel becomes
closed. -/
def closeChan (w : ChanWorld) (c : GoChan) : Except GoPanic ChanWorld :=
  if c.id ∈ w.closedIds then Except.error ⟨"close of closed channel"⟩
  else Except.ok ⟨w.nextId, c.id :: w.closedIds⟩

/-- The gomock `MockTLSReporter` as programmed by `NewMocks`: the
expectation `EXPECT().GetTLSIssueCh().Return(ch).AnyTimes()` makes every
call return the stored channel; the mock also counts its calls, as the
gomock controller does. -/
structure MockTLSReporter where
  tlsIssueChToReturn : GoChan
  calls : Nat
deriving DecidableEq, Repr

/-- One `GetTLSIssueCh` call on the programmed mock: returns the stored
channel and records the call. -/
def MockTLSReporter.GetTLSIssueCh (m : MockTLSReporter) :
    GoChan × MockTLSReporter :=
  (m.tlsIssueChToReturn, ⟨m.tlsIssueChToReturn, m.calls + 1⟩)

/-- Results of `n` successive `GetTLSIssueCh` calls. -/
def getTLSIssueChCalls (m : MockTLSReporter) : Nat → List GoChan
  | 0 => []
  | n + 1 => m.GetTLSIssueCh.1 :: getTLSIssueChCalls m.GetTLSIssueCh.2 n

/-- The fields of the `Mocks` harness the claims are about: the TLS reporter
mock, the `TLSIssueCh` channel it is programmed to return, and the
`TestUpdater`.  The remaining collaborators (proxy controller, autostarter,
crash handler, reporter, heartbeat manager) are gomock doubles with no state
the claims mention. -/
structure Mocks (ρ : Type) where
  TLSReporter : MockTLSReporter
  TLSIssueCh : GoChan
  Updater : TestUpdater ρ

/-- `NewMocks`: allocates the `TLSIssueCh` channel, programs the TLS
reporter to return that same channel for an unbounded number of calls, and
constructs the `TestUpdater` seeded with the supplied versions. -/
def NewMocks (ρ : Type) [Inhabited ρ] (w : ChanWorld)
    (version minAuto : Option SemVer) : Mocks ρ × ChanWorld :=
  (⟨⟨(makeChan w).1, 0⟩, (makeChan w).1, NewTestUpdater ρ version minAuto⟩,
    (makeChan w).2)

/-- `Mocks.Close`: closes the `TLSIssueCh` channel. -/
def Mocks.Close (m : Mocks ρ) (w : ChanWorld) : Except GoPanic ChanWorld :=
  closeChan w m.TLSIssueCh

lemma getTLSIssueChCalls_mem (n : Nat) (c : GoChan) :
    ∀ m : MockTLSReporter,
      c ∈ getTLSIssueChCalls m n → c = m.tlsIssueChToReturn := by
  induction n with
  | zero => exact fun m hc => absurd hc (List.not_mem_nil c)
  | succ k ih =>
    intro m hc
    rcases List.mem_cons.mp hc with h | h
    · exact h
    · exact ih m.GetTLSIssueCh.2 h

/-- C7: within one harness lifetime, every one of arbitrarily many
`GetTLSIssueCh` calls on the TLS reporter returns the identical channel
instance, the `TLSIssueCh` allocated at harness construction. -/
theorem getTLSIssueCh_always_same_channel (ρ : Type) [Inhabited ρ]
    (w : ChanWorld) (v0 m0 : Option SemVer) (n : Nat) (c : GoChan)
    (hc : c ∈ getTLSIssueChCalls (NewMocks ρ w v0 m0).1.TLSReporter n) :
    c = (NewMocks ρ w v0 m0).1.TLSIssueCh :=
  getTLSIssueChCalls_mem n c _ hc

/-- Witness for C7: three calls on a fresh harness all return the channel
allocated at construction. -/
theorem getTLSIssueCh_always_same_channel_witness :
    (⟨0⟩ : GoChan) ∈
        getTLSIssueChCalls (NewMocks Nat ⟨0, []⟩ none none).1.TLSReporter 3 ∧
      (⟨0⟩ : GoChan) = (NewMocks Nat ⟨0, []⟩ none none).1.TLSIssueCh :=
  ⟨by decide,
    getTLSIssueCh_always_same_channel Nat ⟨0, []⟩ none none 3 ⟨0⟩ (by decide)⟩

/-- C8: on a harness built in a well-formed channel world, the first `Close`
succeeds and closes the `TLSIssueCh` channel; a second `Close` of the same
harness is the detectable runtime fault of closing a closed channel. -/
theorem mocks_close_once_then_double_close_panics (ρ : Type) [Inhabited ρ]
    (w : ChanWorld) (v0 m0 : Option SemVer) (hw : w.WF) :
    ∃ w' : ChanWorld,
      Mocks.Close (NewMocks ρ w v0 m0).1 (NewMocks ρ w v0 m0).2 = Except.ok w' ∧
      (NewMocks ρ w v0 m0).1.TLSIssueCh.id ∈ w'.closedIds ∧
      Mocks.Close (NewMocks ρ w v0 m0).1 w' =
        Except.error ⟨"close of closed channel"⟩ := by
  have hnot : w.nextId ∉ w.closedIds := fun h => absurd (hw _ h) (lt_irrefl _)
  refine ⟨⟨w.nextId + 1, w.nextId :: w.closedIds⟩, ?_, ?_, ?_⟩
  · show closeChan ⟨w.nextId + 1, w.closedIds⟩ ⟨w.nextId⟩ = _
    rw [closeChan, if_neg hnot]
  · exact List.mem_cons_self _ _
  · show closeChan ⟨w.nextId + 1, w.nextId :: w.closedIds⟩ ⟨w.nextId⟩ = _
    rw [closeChan, if_pos (List.mem_cons_self _ _)]

/-- Witness for C8: a fresh world; the harness's channel closes once, then
the second close faults. -/
theorem mocks_close_once_then_double_close_panics_witness :
    ChanWorld.WF ⟨0, []⟩ ∧
      ∃ w' : ChanWorld,
        Mocks.Close (NewMocks Nat ⟨0, []⟩ none none).1
            (NewMocks Nat ⟨0, []⟩ none none).2 = Except.ok w' ∧
        (NewMocks Nat ⟨0, []⟩ none none).1.TLSIssueCh.id ∈ w'.closedIds ∧
        Mocks.Close (NewMocks Nat ⟨0, []⟩ none none).1 w' =
          Except.error ⟨"close of closed channel"⟩ :=
  ⟨fun i hi => absurd hi (List.not_mem_nil i),
    mocks_close_once_then_double_close_panics Nat ⟨0, []⟩ none none
      (fun i hi => absurd hi (List.not_mem_nil i))⟩

/-- A component of a filesystem path.  `os.MkdirTemp(dir, pattern)` names
the directory it creates `pattern` followed by a random string that makes
the name unique, so a component is modelled as the pattern together with
that uniquifying part. -/
structure PathComp where
  base : String
  uniq : Nat
deriving DecidableEq, Repr

/-- A filesystem path, as the list of its components. -/
abbrev GoPath := List PathComp

/-- The filesystem state this file touches: the directories that exist and
the source of fresh uniquifiers. -/
structure FS where
  counter : Nat
  dirs : List GoPath
deriving DecidableEq, Repr

/-- Model of Go's `os.MkdirTemp(dir, pattern)`: creates and returns a fresh,
uniquely named directory directly under `dir`.  In this model it always
succeeds, so the `panic(err)` branches of the source are never taken. -/
def MkdirTemp (fs : FS) (dir : GoPath) (pattern : String) : GoPath × FS :=
  (dir ++ [⟨pattern, fs.counter⟩],
    ⟨fs.counter + 1, (dir ++ [⟨pattern, fs.counter⟩]) :: fs.dirs⟩)

/-- The state of `TestLocationsProvider`: the three directory paths made at
construction. -/
structure TestLocationsProvider where
  config : GoPath
  data : GoPath
  cache : GoPath
deriving DecidableEq, Repr

/-- `NewTestLocationsProvider`: creates the three temporary directories
under `dir`, with the patterns "config", "data" and "cache", in that
order. -/
def NewTestLocationsProvider (fs : FS) (dir : GoPath) :
    TestLocationsProvider × FS :=
  (⟨(MkdirTemp fs dir "config").1,
      (MkdirTemp (MkdirTemp fs dir "config").2 dir "data").1,
      (MkdirTemp (MkdirTemp (MkdirTemp fs dir "config").2 dir "data").2 dir
          "cache").1⟩,
    (MkdirTemp (MkdirTemp (MkdirTemp fs dir "config").2 dir "data").2 dir
        "cache").2)

/-- `UserConfig`: the config directory created at construction. -/
def TestLocationsProvider.UserConfig (provider : TestLocationsProvider) :
    GoPath :=
  provider.config

/-- `UserData`: the data directory created at construction. -/
def TestLocationsProvider.UserData (provider : TestLocationsProvider) :
    GoPath :=
  provider.data

/-- `UserCache`: the cache directory created at construction. -/
def TestLocationsProvider.UserCache (provider : TestLocationsProvider) :
    GoPath :=
  provider.cache

/-- C9: the three directories handed out by `TestLocationsProvider` each lie
directly under the root supplied to the constructor, each exists in the
resulting filesystem, and the three paths are pairwise distinct. -/
theorem locations_under_root_exist_distinct (fs : FS) (dir : GoPath) :
    (∃ n, (NewTestLocationsProvider fs dir).1.UserConfig = dir ++ [n]) ∧
    (∃ n, (NewTestLocationsProvider fs dir).1.UserData = dir ++ [n]) ∧
    (∃ n, (NewTestLocationsProvider fs dir).1.UserCache = dir ++ [n]) ∧
    (NewTestLocationsProvider fs dir).1.UserConfig ∈
      (NewTestLocationsProvider fs dir).2.dirs ∧
    (NewTestLocationsProvider fs dir).1.UserData ∈
      (NewTestLocationsProvider fs dir).2.dirs ∧
    (NewTestLocationsProvider fs dir).1.UserCache ∈
      (NewTestLocationsProvider fs dir).2.dirs ∧
    (NewTestLocationsProvider fs dir).1.UserConfig ≠
      (NewTestLocationsProvider fs dir).1.UserData ∧
    (NewTestLocationsProvider fs dir).1.UserConfig ≠
      (NewTestLocationsProvider fs dir).1.UserCache ∧
    (NewTestLocationsProvider fs dir).1.UserData ≠
      (NewTestLocationsProvider fs dir).1.UserCache := by
  refine ⟨⟨⟨"config", fs.counter⟩, rfl⟩, ⟨⟨"data", fs.counter + 1⟩, rfl⟩,
    ⟨⟨"cache", fs.counter + 2⟩, rfl⟩, ?_, ?_, ?_, ?_, ?_, ?_⟩ <;>
    simp [NewTestLocationsProvider, MkdirTemp, TestLocationsProvider.UserConfig,
      TestLocationsProvider.UserData, TestLocationsProvider.UserCache]

/-- `url.URL`; only the `Host` field is ever consulted by `TestCookieJar`. -/
structure URL where
  Host : String
deriving DecidableEq, Repr

/-- `TestCookieJar`: a map from host to cookie slice, as in Go's
`map[string][]*http.Cookie`.  The cookie type is opaque here, so the jar is
parametric in it; reading a host that was never set yields Go's nil slice,
modelled as the empty list, exactly the result of a Go map read of an
absent key. -/
structure TestCookieJar (κ : Type) where
  cookies : String → List κ

variable {κ : Type}

/-- `NewTestCookieJar`: the empty map. -/
def NewTestCookieJar (κ : Type) : TestCookieJar κ :=
  ⟨fun _ => []⟩

/-- `SetCookies`: stores the whole slice under the URL's host, replacing any
earlier slice for that host. -/
def TestCookieJar.SetCookies (j : TestCookieJar κ) (u : URL) (cs : List κ) :
    TestCookieJar κ :=
  ⟨Function.update j.cookies u.Host cs⟩

/-- `Cookies`: the slice stored under the URL's host. -/
def TestCookieJar.Cookies (j : TestCookieJar κ) (u : URL) : List κ :=
  j.cookies u.Host

/-- Runs a sequence of `SetCookies` calls on a jar. -/
def runSetCookies (j : TestCookieJar κ) (calls : List (URL × List κ)) :
    TestCookieJar κ :=
  calls.foldl (fun j c => j.SetCookies c.1 c.2) j

lemma runSetCookies_not_mem (calls : List (URL × List κ)) (h : String) :
    ∀ j : TestCookieJar κ, (∀ c ∈ calls, c.1.Host ≠ h) →
      (runSetCookies j calls).cookies h = j.cookies h := by
  induction calls with
  | nil => exact fun j _ => rfl
  | cons c rest ih =>
    intro j hh
    show (runSetCookies (j.SetCookies c.1 c.2) rest).cookies h = _
    rw [ih _ (fun c' hc' => hh c' (List.mem_cons_of_mem _ hc'))]
    exact Function.update_noteq
      (Ne.symm (hh c (List.mem_cons_self _ _))) c.2 j.cookies

/-- C10: `TestCookieJar` is keyed only by the URL's host: a `SetCookies`
replaces the whole slice for that host and serves it to every URL with the
same host; a host never set yields the nil slice; and a `SetCookies` on one
host leaves every other host's cookies unchanged. -/
theorem cookie_jar_host_keyed (κ : Type) :
    (∀ (j : TestCookieJar κ) (u u' : URL) (cs : List κ),
        u'.Host = u.Host → (j.SetCookies u cs).Cookies u' = cs) ∧
    (∀ (calls : List (URL × List κ)) (u' : URL),
        (∀ c ∈ calls, c.1.Host ≠ u'.Host) →
        (runSetCookies (NewTestCookieJar κ) calls).Cookies u' = []) ∧
    (∀ (j : TestCookieJar κ) (u u' : URL) (cs : List κ),
        u'.Host ≠ u.Host → (j.SetCookies u cs).Cookies u' = j.Cookies u') := by
  refine ⟨?_, ?_, ?_⟩
  · intro j u u' cs h
    show Function.update j.cookies u.Host cs u'.Host = cs
    rw [h, Function.update_same]
  · intro calls u' h
    show (runSetCookies (NewTestCookieJar κ) calls).cookies u'.Host = []
    rw [runSetCookies_not_mem calls u'.Host _ h]
    rfl
  · intro j u u' cs h
    show Function.update j.cookies u.Host cs u'.Host = j.cookies u'.Host
    exact Function.update_noteq h cs j.cookies

end Bridge
